import Mathlib

/-!
Verification of the Collaborators dashboard
(`src/pages/Collaborators` and `src/lib`): enrollment state machine,
local-storage persistence, announcement fetch adapters, and the
enrollments-tab sort.  Definitions are shallow embeddings of the
TypeScript source; machine-level details (JS `Date`, JSON text) are
modelled structurally as documented on each definition.
-/

namespace Collaborators

/-- Modelled from the spec: the `Campaign` entity of
`src/pages/Collaborators/types.ts` (file not in the source tree); the spec's
data model lists the fields id, merchant, discount, and reward terms. -/
structure Campaign where
  id : String
  merchant : String
  discount : String
  reward : String
deriving DecidableEq, Repr

/-- A JavaScript `Date` value: a millisecond time value when valid, or the
Invalid Date (`NaN` time value), modelled as `none`. -/
structure JsDate where
  ms : Option Int
deriving DecidableEq, Repr

/-- `Date.prototype.getTime` of a valid date is its millisecond value; the
Invalid Date (whose `getTime` is `NaN`) is modelled as `0`. -/
def JsDate.getTime (d : JsDate) : Int :=
  d.ms.getD 0

/-- The string form of an `enrolledAt` value inside the JSON-serialized
enrollment array.  `Date.prototype.toISOString` is injective on valid dates
and `new Date(s)` inverts it, so the encoding keeps the millisecond time
value rather than the character string; any string `new Date` cannot parse
is kept verbatim in the `unparsable` constructor. -/
inductive DateString
  | iso (ms : Int)
  | unparsable (s : String)
deriving DecidableEq, Repr

/-- `Date.prototype.toISOString`: succeeds on a valid date, throws a
`RangeError` (modelled as `Except.error`) on the Invalid Date. -/
def JsDate.toISOStringE : JsDate → Except String DateString
  | ⟨some t⟩ => Except.ok (DateString.iso t)
  | ⟨none⟩ => Except.error "RangeError: Invalid time value"

/-- `new Date(s)` on a string: inverts `toISOString` on ISO strings, yields
the Invalid Date otherwise. -/
def newDateOfString : DateString → JsDate
  | DateString.iso t => ⟨some t⟩
  | DateString.unparsable _ => ⟨none⟩

/-- The `uploadedFile` metadata stored on an enrollment by `uploadFile`
(`useCollaborators.ts` line 119): the file's name and size. -/
structure UploadedFileMeta where
  name : String
  size : Int
deriving DecidableEq, Repr

/-- The `stats` record written on approval (`useCollaborators.ts`
lines 154, 178, 198). -/
structure EnrollmentStats where
  clicks : Int
  orders : Int
  earnings : Int
deriving DecidableEq, Repr

/-- The `Enrollment` entity, fields as constructed and mutated by
`useCollaborators.ts` (`types.ts` itself is not in the source tree; the
spec's data model lists the same fields).  `status` is kept as a `String`,
as at the TypeScript runtime, so that closure of the status set is a real
property rather than a typing artifact. -/
structure Enrollment where
  id : String
  campaign : Campaign
  status : String
  enrolledAt : JsDate
  clicks : Int
  orders : Int
  earnings : Int
  uploadedFile : Option UploadedFileMeta := none
  referralUrl : Option String := none
  stats : Option EnrollmentStats := none
  rejectionReason : Option String := none
deriving DecidableEq, Repr

/-- The closed set of enrollment statuses from the spec's data model. -/
def enrollmentStatuses : List String :=
  ["enrolled", "uploaded", "processing", "under-review", "approved", "rejected"]

/-- Modelled from the spec: `isTerminalState` from
`src/pages/Collaborators/utils.ts` (file not in the source tree); the spec
says approved and rejected are terminal. -/
def isTerminalState (s : String) : Bool :=
  s = "approved" || s = "rejected"

/-- Modelled from the spec: `nextEnrollmentState` from
`src/pages/Collaborators/utils.ts` (file not in the source tree); the spec
gives the pipeline enrolled → uploaded → processing → under-review →
approved, with no successor for the terminal states. -/
def nextEnrollmentState (s : String) : Option String :=
  if s = "enrolled" then some "uploaded"
  else if s = "uploaded" then some "processing"
  else if s = "processing" then some "under-review"
  else if s = "under-review" then some "approved"
  else none

/-- The referral URL written on approval (`useCollaborators.ts` lines 150,
174, 194): `https://snoonu.com/ref/<campaign id>?c=<Date.now()>`. -/
def referralUrlFor (campaignId : String) (now : Int) : String :=
  "https://snoonu.com/ref/" ++ campaignId ++ "?c=" ++ toString now

/-- `enrollInCampaign` (`useCollaborators.ts` lines 102-114): appends a new
enrollment with status `enrolled`, the current time, and zero counters.
`Date.now()` / `new Date()` are passed in as `now`. -/
def enrollInCampaign (c : Campaign) (now : Int) (es : List Enrollment) : List Enrollment :=
  es ++ [{ id := "enrollment-" ++ toString now
           campaign := c
           status := "enrolled"
           enrolledAt := ⟨some now⟩
           clicks := 0
           orders := 0
           earnings := 0 }]

/-- `uploadFile` (`useCollaborators.ts` lines 116-123): on the matching id,
stores the file metadata and sets status `uploaded` unconditionally. -/
def uploadFile (eid : String) (fileName : String) (fileSize : Int)
    (es : List Enrollment) : List Enrollment :=
  es.map fun e =>
    if e.id = eid then
      { e with uploadedFile := some ⟨fileName, fileSize⟩, status := "uploaded" }
    else e

/-- The immediate effect of `submitForReview` (`useCollaborators.ts`
lines 126-128): on the matching id, sets status `processing`
unconditionally. -/
def submitForReview (eid : String) (es : List Enrollment) : List Enrollment :=
  es.map fun e =>
    if e.id = eid then { e with status := "processing" } else e

/-- The first delayed callback of `submitForReview` (`useCollaborators.ts`
lines 133-139): processing → under-review, guarded on the status still
being `processing`. -/
def submitReviewTimer1 (eid : String) (es : List Enrollment) : List Enrollment :=
  es.map fun e =>
    if e.id = eid ∧ e.status = "processing" then
      { e with status := "under-review" }
    else e

/-- The second delayed callback of `submitForReview` (`useCollaborators.ts`
lines 141-157): under-review → approved, guarded on the status still being
`under-review`; generates stats from three `Math.random()` draws (passed in
as `rc`, `ro`, `re`) and a referral URL from `Date.now()` (passed in as
`now`). -/
def submitReviewTimer2 (eid : String) (rc ro re : Rat) (now : Int)
    (es : List Enrollment) : List Enrollment :=
  es.map fun e =>
    if e.id ≠ eid ∨ e.status ≠ "under-review" then e
    else
      let clicks := ⌊rc * 400⌋ + 100
      let orders := ⌊ro * 40⌋ + 10
      let earnings := ⌊re * 150⌋ + 50
      { e with status := "approved"
               referralUrl := some (referralUrlFor e.campaign.id now)
               clicks := clicks
               orders := orders
               earnings := earnings
               stats := some ⟨clicks, orders, earnings⟩ }

/-- `advanceEnrollment` (`useCollaborators.ts` lines 160-183): skips the
matching enrollment when its status is terminal, otherwise steps it to
`nextEnrollmentState`, generating stats and a referral URL when the next
status is `approved`. -/
def advanceEnrollment (eid : String) (rc ro re : Rat) (now : Int)
    (es : List Enrollment) : List Enrollment :=
  es.map fun e =>
    if e.id ≠ eid ∨ isTerminalState e.status then e
    else
      match nextEnrollmentState e.status with
      | none => e
      | some nextStatus =>
        if nextStatus = "approved" then
          let clicks := ⌊rc * 400⌋ + 100
          let orders := ⌊ro * 40⌋ + 10
          let earnings := ⌊re * 150⌋ + 50
          { e with status := nextStatus
                   referralUrl := some (referralUrlFor e.campaign.id now)
                   clicks := clicks
                   orders := orders
                   earnings := earnings
                   stats := some ⟨clicks, orders, earnings⟩ }
        else { e with status := nextStatus }

/-- `advanceToApproved` (`useCollaborators.ts` lines 185-202): on the
matching id, sets status `approved` unconditionally and generates stats
(multipliers 500 / 50 / 200) and a referral URL. -/
def advanceToApproved (eid : String) (rc ro re : Rat) (now : Int)
    (es : List Enrollment) : List Enrollment :=
  es.map fun e =>
    if e.id ≠ eid then e
    else
      let clicks := ⌊rc * 500⌋ + 100
      let orders := ⌊ro * 50⌋ + 10
      let earnings := ⌊re * 200⌋ + 50
      { e with status := "approved"
               referralUrl := some (referralUrlFor e.campaign.id now)
               clicks := clicks
               orders := orders
               earnings := earnings
               stats := some ⟨clicks, orders, earnings⟩ }

/-- `rejectEnrollment` (`useCollaborators.ts` lines 204-211): on the
matching id, sets status `rejected` unconditionally with a fixed rejection
reason. -/
def rejectEnrollment (eid : String) (es : List Enrollment) : List Enrollment :=
  es.map fun e =>
    if e.id = eid then
      { e with status := "rejected"
               rejectionReason := some "Video did not meet the campaign guidelines. Please ensure you mention the discount code clearly." }
    else e

/-- An enrollment as it appears inside the JSON-serialized array stored in
local storage: the same fields, with `enrolledAt` as a date string
(`useCollaborators.ts` lines 36-39 produce it, lines 23-26 read it back). -/
structure StoredEnrollment where
  id : String
  campaign : Campaign
  status : String
  enrolledAt : DateString
  clicks : Int
  orders : Int
  earnings : Int
  uploadedFile : Option UploadedFileMeta := none
  referralUrl : Option String := none
  stats : Option EnrollmentStats := none
  rejectionReason : Option String := none
deriving DecidableEq, Repr

/-- A value held under a local-storage key: either a string that
`JSON.parse` turns into an array of enrollment-shaped objects, or any other
string (on which the parse throws or the result is not such an array). -/
inductive StoredValue
  | enrollArray (xs : List StoredEnrollment)
  | malformed (s : String)
deriving DecidableEq, Repr

/-- The browser `localStorage`, as a list of key/value bindings. -/
abbrev LocalStorage : Type :=
  List (String × StoredValue)

/-- `localStorage.getItem`: the value bound to the key, if any. -/
def getItem (st : LocalStorage) (k : String) : Option StoredValue :=
  (st.find? fun p => p.1 == k).map fun p => p.2

/-- `localStorage.setItem`: rebinds the key if present, appends otherwise. -/
def setItem (st : LocalStorage) (k : String) (v : StoredValue) : LocalStorage :=
  if st.any fun p => p.1 == k then
    st.map fun p => if p.1 == k then (k, v) else p
  else st ++ [(k, v)]

/-- `ENROLLMENTS_STORAGE_KEY` (`useCollaborators.ts` line 13). -/
def ENROLLMENTS_STORAGE_KEY : String :=
  "snoonu-collaborators-enrollments"

/-- One element of the serialization map in `saveEnrollmentsToStorage`
(`useCollaborators.ts` lines 36-39): spread the enrollment, turning
`enrolledAt` into its ISO string; throws when the date is invalid. -/
def serializeEnrollment (e : Enrollment) : Except String StoredEnrollment :=
  match e.enrolledAt.toISOStringE with
  | Except.error err => Except.error err
  | Except.ok d =>
    Except.ok { id := e.id
                campaign := e.campaign
                status := e.status
                enrolledAt := d
                clicks := e.clicks
                orders := e.orders
                earnings := e.earnings
                uploadedFile := e.uploadedFile
                referralUrl := e.referralUrl
                stats := e.stats
                rejectionReason := e.rejectionReason }

/-- The serialization map over the whole array, propagating a thrown
`RangeError` from any element. -/
def serializeEnrollments : List Enrollment → Except String (List StoredEnrollment)
  | [] => Except.ok []
  | e :: rest =>
    match serializeEnrollment e, serializeEnrollments rest with
    | Except.ok d, Except.ok ds => Except.ok (d :: ds)
    | Except.error err, _ => Except.error err
    | Except.ok _, Except.error err => Except.error err

/-- One element of the deserialization map in `loadEnrollmentsFromStorage`
(`useCollaborators.ts` lines 23-26): spread the parsed object, converting
`enrolledAt` back with `new Date`. -/
def deserializeEnrollment (e : StoredEnrollment) : Enrollment :=
  { id := e.id
    campaign := e.campaign
    status := e.status
    enrolledAt := newDateOfString e.enrolledAt
    clicks := e.clicks
    orders := e.orders
    earnings := e.earnings
    uploadedFile := e.uploadedFile
    referralUrl := e.referralUrl
    stats := e.stats
    rejectionReason := e.rejectionReason }

/-- The body of the `try` block of `saveEnrollmentsToStorage`
(`useCollaborators.ts` lines 34-40): serialize, then write under the single
key.  `writeFails` models the store write itself throwing (e.g. a
`QuotaExceededError`). -/
def saveEnrollmentsToStorageImpl (es : List Enrollment) (st : LocalStorage)
    (writeFails : Bool) : Except String LocalStorage :=
  match serializeEnrollments es with
  | Except.error err => Except.error err
  | Except.ok ser =>
    if writeFails then Except.error "QuotaExceededError"
    else Except.ok (setItem st ENROLLMENTS_STORAGE_KEY (StoredValue.enrollArray ser))

/-- `saveEnrollmentsToStorage` (`useCollaborators.ts` lines 33-44): the
`try` body with every thrown error caught and logged, leaving the store
unchanged. -/
def saveEnrollmentsToStorage (es : List Enrollment) (st : LocalStorage)
    (writeFails : Bool) : LocalStorage :=
  match saveEnrollmentsToStorageImpl es st writeFails with
  | Except.ok st2 => st2
  | Except.error _ => st

/-- The body of the `try` block of `loadEnrollmentsFromStorage`
(`useCollaborators.ts` lines 18-26): absent key yields `[]`; a malformed
stored string makes `JSON.parse` (or the array map) throw. -/
def loadEnrollmentsFromStorageImpl (st : LocalStorage) : Except String (List Enrollment) :=
  match getItem st ENROLLMENTS_STORAGE_KEY with
  | none => Except.ok []
  | some (StoredValue.malformed s) => Except.error ("SyntaxError: JSON.parse: " ++ s)
  | some (StoredValue.enrollArray xs) => Except.ok (xs.map deserializeEnrollment)

/-- `loadEnrollmentsFromStorage` (`useCollaborators.ts` lines 16-31): the
`try` body with every thrown error caught and logged, returning `[]`. -/
def loadEnrollmentsFromStorage (st : LocalStorage) : List Enrollment :=
  match loadEnrollmentsFromStorageImpl st with
  | Except.ok es => es
  | Except.error _ => []

/-- An announcement row of the hosted database's `announcments` table;
`fetchAnnouncementsBasic` (`example-fetch.ts` line 58) selects the columns
id, merchant, discount, reward. -/
structure Announcement where
  id : String
  merchant : String
  discount : String
  reward : String
deriving DecidableEq, Repr

/-- The outcome of an awaited database query: it resolves with data, or
resolves with `{ data: null, error }`, or the await itself throws. -/
inductive QueryOutcome (α : Type)
  | success (data : α)
  | failure (err : String)
  | thrown (exn : String)
deriving DecidableEq, Repr

/-- `fetchAllAnnouncements` (`example-fetch.ts` lines 11-29): returns the
data on success, `null` (modelled as `none`) when the query reports an
error or the call throws. -/
def fetchAllAnnouncements (o : QueryOutcome (List Announcement)) :
    Option (List Announcement) :=
  match o with
  | QueryOutcome.success d => some d
  | QueryOutcome.failure _ => none
  | QueryOutcome.thrown _ => none

/-- `fetchAnnouncementsOrdered` (`example-fetch.ts` lines 32-50): same
handling; the `created_at` ordering happens inside the hosted database and
is part of the outcome. -/
def fetchAnnouncementsOrdered (o : QueryOutcome (List Announcement)) :
    Option (List Announcement) :=
  match o with
  | QueryOutcome.success d => some d
  | QueryOutcome.failure _ => none
  | QueryOutcome.thrown _ => none

/-- `fetchAnnouncementsBasic` (`example-fetch.ts` lines 53-70): same
handling; only four columns are selected, which is part of the outcome. -/
def fetchAnnouncementsBasic (o : QueryOutcome (List Announcement)) :
    Option (List Announcement) :=
  match o with
  | QueryOutcome.success d => some d
  | QueryOutcome.failure _ => none
  | QueryOutcome.thrown _ => none

/-- `fetchAnnouncementsByMerchant` (`example-fetch.ts` lines 73-91): same
handling; the merchant filter happens inside the hosted database. -/
def fetchAnnouncementsByMerchant (merchantName : String)
    (o : QueryOutcome (List Announcement)) : Option (List Announcement) :=
  match merchantName, o with
  | _, QueryOutcome.success d => some d
  | _, QueryOutcome.failure _ => none
  | _, QueryOutcome.thrown _ => none

/-- `fetchAnnouncementById` (`example-fetch.ts` lines 94-113): `.single()`
resolves with one row; error and thrown cases yield `null`. -/
def fetchAnnouncementById (id : String) (o : QueryOutcome Announcement) :
    Option Announcement :=
  match id, o with
  | _, QueryOutcome.success d => some d
  | _, QueryOutcome.failure _ => none
  | _, QueryOutcome.thrown _ => none

/-- The outcome of the campaign fetch performed by the announcements tab:
rows come back, or the query reports a handled database error, or the
connection test / fetch throws. -/
inductive FetchOutcome
  | rows (cs : List Campaign)
  | dbError (e : String)
  | thrown (e : String)
deriving DecidableEq, Repr

/-- Modelled from the spec: `fetchCampaigns` from
`src/lib/supabaseQueries.ts` (file not in the source tree); per the spec's
error-handling design, a handled database error degrades to an empty list,
while an unexpected exception propagates to the caller. -/
def fetchCampaigns : FetchOutcome → Except String (List Campaign)
  | FetchOutcome.rows cs => Except.ok cs
  | FetchOutcome.dbError _ => Except.ok []
  | FetchOutcome.thrown e => Except.error e

/-- `loadCampaigns` (`AnnouncementsTab.tsx` lines 19-45): the campaign list
the view ends up showing — the fetched rows when non-empty, the empty list
when the fetch yields no rows or anything throws. -/
def loadCampaigns (o : FetchOutcome) : List Campaign :=
  match fetchCampaigns o with
  | Except.error _ => []
  | Except.ok cs => if cs.length > 0 then cs else []

/-- `statusPriority` (`EnrollmentsTab.tsx` lines 13-20); a status outside
the record (a JS `undefined` lookup) is modelled as priority 0. -/
def statusPriority (s : String) : Int :=
  if s = "approved" then 6
  else if s = "under-review" then 5
  else if s = "processing" then 4
  else if s = "uploaded" then 3
  else if s = "enrolled" then 2
  else if s = "rejected" then 1
  else 0

/-- The comparator passed to `sort` in `sortedEnrollments`
(`EnrollmentsTab.tsx` lines 34-39): descending status priority, ties by
descending `enrolledAt`. -/
def enrollmentCompare (a b : Enrollment) : Int :=
  let d := statusPriority b.status - statusPriority a.status
  if d ≠ 0 then d else b.enrolledAt.getTime - a.enrolledAt.getTime

/-- "`a` may come before `b`": the comparator returns a non-positive
value. -/
def enrollmentLEb (a b : Enrollment) : Bool :=
  decide (enrollmentCompare a b ≤ 0)

/-- `sortedEnrollments` (`EnrollmentsTab.tsx` lines 33-40): the enrollments
sorted by the comparator; JS `Array.prototype.sort` is stable, modelled by
stable merge sort on "comparator ≤ 0". -/
def sortedEnrollments (es : List Enrollment) : List Enrollment :=
  es.mergeSort enrollmentLEb

/-- One enrollment-mutating operation of `useCollaborators`, with the
environment (current time, random draws, file metadata) it reads. -/
inductive Op
  | enroll (c : Campaign) (now : Int)
  | upload (eid : String) (fileName : String) (fileSize : Int)
  | submit (eid : String)
  | submitCb1 (eid : String)
  | submitCb2 (eid : String) (rc ro re : Rat) (now : Int)
  | advance (eid : String) (rc ro re : Rat) (now : Int)
  | approve (eid : String) (rc ro re : Rat) (now : Int)
  | reject (eid : String)

/-- Apply one operation to the enrollment list. -/
def applyOp : Op → List Enrollment → List Enrollment
  | Op.enroll c now, es => enrollInCampaign c now es
  | Op.upload eid n sz, es => uploadFile eid n sz es
  | Op.submit eid, es => submitForReview eid es
  | Op.submitCb1 eid, es => submitReviewTimer1 eid es
  | Op.submitCb2 eid rc ro re now, es => submitReviewTimer2 eid rc ro re now es
  | Op.advance eid rc ro re now, es => advanceEnrollment eid rc ro re now es
  | Op.approve eid rc ro re now, es => advanceToApproved eid rc ro re now es
  | Op.reject eid, es => rejectEnrollment eid es

/-- Apply a sequence of operations, oldest first. -/
def applyOps (ops : List Op) (es : List Enrollment) : List Enrollment :=
  ops.foldl (fun s op => applyOp op s) es

/-- The post-approval shape asserted about an enrollment: a non-empty
referral URL, counters in range, and a `stats` record equal to the
top-level counters. -/
def approvedStatsOK (e : Enrollment) : Prop :=
  (∃ u, e.referralUrl = some u ∧ u ≠ "") ∧
  100 ≤ e.clicks ∧ e.clicks ≤ 599 ∧
  10 ≤ e.orders ∧ e.orders ≤ 59 ∧
  50 ≤ e.earnings ∧ e.earnings ≤ 249 ∧
  e.stats = some ⟨e.clicks, e.orders, e.earnings⟩ ∧
  e.status = "approved"

/-- A sample campaign, for concrete witnesses. -/
def sampleCampaign : Campaign :=
  { id := "campaign-1", merchant := "Pasta Bar", discount := "20%", reward := "5 QAR/order" }

/-- A sample approved enrollment, for concrete witnesses. -/
def approvedE : Enrollment :=
  { id := "e1"
    campaign := sampleCampaign
    status := "approved"
    enrolledAt := ⟨some 1700000000000⟩
    clicks := 150
    orders := 12
    earnings := 80 }

/-- A sample rejected enrollment, for concrete witnesses. -/
def rejectedE : Enrollment :=
  { id := "e2"
    campaign := sampleCampaign
    status := "rejected"
    enrolledAt := ⟨some 1700000000001⟩
    clicks := 0
    orders := 0
    earnings := 0
    rejectionReason := some "Video did not meet the campaign guidelines. Please ensure you mention the discount code clearly." }

/-- A sample under-review enrollment, for concrete witnesses. -/
def underReviewE : Enrollment :=
  { id := "e3"
    campaign := sampleCampaign
    status := "under-review"
    enrolledAt := ⟨some 1700000000002⟩
    clicks := 0
    orders := 0
    earnings := 0
    uploadedFile := some ⟨"video.mp4", 1024⟩ }

theorem uploadFile_map_id (eid fn : String) (sz : Int) (es : List Enrollment) :
    (uploadFile eid fn sz es).map Enrollment.id = es.map Enrollment.id := by
  simp only [uploadFile, List.map_map]
  refine List.map_congr_left fun e _ => ?_
  by_cases h : e.id = eid <;> simp [Function.comp, h]

theorem submitForReview_map_id (eid : String) (es : List Enrollment) :
    (submitForReview eid es).map Enrollment.id = es.map Enrollment.id := by
  simp only [submitForReview, List.map_map]
  refine List.map_congr_left fun e _ => ?_
  by_cases h : e.id = eid <;> simp [Function.comp, h]

theorem submitReviewTimer1_map_id (eid : String) (es : List Enrollment) :
    (submitReviewTimer1 eid es).map Enrollment.id = es.map Enrollment.id := by
  simp only [submitReviewTimer1, List.map_map]
  refine List.map_congr_left fun e _ => ?_
  by_cases h : e.id = eid ∧ e.status = "processing" <;> simp [Function.comp, h]

theorem submitReviewTimer2_map_id (eid : String) (rc ro re : Rat) (now : Int)
    (es : List Enrollment) :
    (submitReviewTimer2 eid rc ro re now es).map Enrollment.id = es.map Enrollment.id := by
  simp only [submitReviewTimer2, List.map_map]
  refine List.map_congr_left fun e _ => ?_
  by_cases h : e.id ≠ eid ∨ e.status ≠ "under-review" <;> simp [Function.comp, h]

theorem advanceEnrollment_map_id (eid : String) (rc ro re : Rat) (now : Int)
    (es : List Enrollment) :
    (advanceEnrollment eid rc ro re now es).map Enrollment.id = es.map Enrollment.id := by
  simp only [advanceEnrollment, List.map_map]
  refine List.map_congr_left fun e _ => ?_
  by_cases h : e.id ≠ eid ∨ isTerminalState e.status
  · simp [Function.comp, h]
  · simp only [Function.comp, h, if_false]
    rcases hn : nextEnrollmentState e.status with _ | ns
    · simp
    · by_cases ha : ns = "approved" <;> simp [ha]

theorem advanceToApproved_map_id (eid : String) (rc ro re : Rat) (now : Int)
    (es : List Enrollment) :
    (advanceToApproved eid rc ro re now es).map Enrollment.id = es.map Enrollment.id := by
  simp only [advanceToApproved, List.map_map]
  refine List.map_congr_left fun e _ => ?_
  by_cases h : e.id ≠ eid <;> simp [Function.comp, h]

theorem rejectEnrollment_map_id (eid : String) (es : List Enrollment) :
    (rejectEnrollment eid es).map Enrollment.id = es.map Enrollment.id := by
  simp only [rejectEnrollment, List.map_map]
  refine List.map_congr_left fun e _ => ?_
  by_cases h : e.id = eid <;> simp [Function.comp, h]

/-- C7: `enrollInCampaign` appends exactly one new enrollment with status
`enrolled`, the given campaign, and zero clicks/orders/earnings, leaving
every pre-existing enrollment unchanged in content and relative order; and
none of the other enrollment operations removes a record — each preserves
the id sequence of the list. -/
theorem enrollInCampaign_appends_and_ops_preserve
    (c : Campaign) (now : Int) (es : List Enrollment) :
    (∃ newE : Enrollment,
      enrollInCampaign c now es = es ++ [newE] ∧
      newE.status = "enrolled" ∧ newE.campaign = c ∧
      newE.clicks = 0 ∧ newE.orders = 0 ∧ newE.earnings = 0) ∧
    (∀ eid fn sz, (uploadFile eid fn sz es).map Enrollment.id = es.map Enrollment.id) ∧
    (∀ eid, (submitForReview eid es).map Enrollment.id = es.map Enrollment.id) ∧
    (∀ eid, (submitReviewTimer1 eid es).map Enrollment.id = es.map Enrollment.id) ∧
    (∀ eid rc ro re n2,
      (submitReviewTimer2 eid rc ro re n2 es).map Enrollment.id = es.map Enrollment.id) ∧
    (∀ eid rc ro re n2,
      (advanceEnrollment eid rc ro re n2 es).map Enrollment.id = es.map Enrollment.id) ∧
    (∀ eid rc ro re n2,
      (advanceToApproved eid rc ro re n2 es).map Enrollment.id = es.map Enrollment.id) ∧
    (∀ eid, (rejectEnrollment eid es).map Enrollment.id = es.map Enrollment.id) := by
  refine ⟨⟨_, rfl, rfl, rfl, rfl, rfl, rfl⟩, ?_, ?_, ?_, ?_, ?_, ?_, ?_⟩
  · exact fun eid fn sz => uploadFile_map_id eid fn sz es
  · exact fun eid => submitForReview_map_id eid es
  · exact fun eid => submitReviewTimer1_map_id eid es
  · exact fun eid rc ro re n2 => submitReviewTimer2_map_id eid rc ro re n2 es
  · exact fun eid rc ro re n2 => advanceEnrollment_map_id eid rc ro re n2 es
  · exact fun eid rc ro re n2 => advanceToApproved_map_id eid rc ro re n2 es
  · exact fun eid => rejectEnrollment_map_id eid es

/-- C4 counterexample: on a query error, `fetchAllAnnouncements` returns
`null` (`none`), not the empty list the claim states. -/
theorem fetchAllAnnouncements_error_not_empty_list_cex :
    fetchAllAnnouncements (QueryOutcome.failure "db down") = none ∧
    fetchAllAnnouncements (QueryOutcome.failure "db down") ≠ some [] :=
  ⟨rfl, fun h => Option.noConfusion h⟩

/-- C4 (amended): every announcement-fetch function degrades a reported
query error or a thrown exception to `null` (`none`) rather than a
structured error, and the campaigns view shows an empty campaign list on
fetch failure. -/
theorem fetch_failures_null_and_view_empty (e m aid : String) :
    fetchAllAnnouncements (QueryOutcome.failure e) = none ∧
    fetchAllAnnouncements (QueryOutcome.thrown e) = none ∧
    fetchAnnouncementsOrdered (QueryOutcome.failure e) = none ∧
    fetchAnnouncementsOrdered (QueryOutcome.thrown e) = none ∧
    fetchAnnouncementsBasic (QueryOutcome.failure e) = none ∧
    fetchAnnouncementsBasic (QueryOutcome.thrown e) = none ∧
    fetchAnnouncementsByMerchant m (QueryOutcome.failure e) = none ∧
    fetchAnnouncementsByMerchant m (QueryOutcome.thrown e) = none ∧
    fetchAnnouncementById aid (QueryOutcome.failure e) = none ∧
    fetchAnnouncementById aid (QueryOutcome.thrown e) = none ∧
    loadCampaigns (FetchOutcome.dbError e) = [] ∧
    loadCampaigns (FetchOutcome.thrown e) = [] :=
  ⟨rfl, rfl, rfl, rfl, rfl, rfl, rfl, rfl, rfl, rfl, rfl, rfl⟩

/-- C5: `loadEnrollmentsFromStorage` returns `[]` when the key is absent or
the stored value is malformed, and `saveEnrollmentsToStorage` is a no-op on
the store when the underlying write throws; in the embedding both exported
functions are total — every exception of the `try` body is caught. -/
theorem storage_failures_degrade (st : LocalStorage) (es : List Enrollment) (s : String) :
    (getItem st ENROLLMENTS_STORAGE_KEY = none → loadEnrollmentsFromStorage st = []) ∧
    (getItem st ENROLLMENTS_STORAGE_KEY = some (StoredValue.malformed s) →
      loadEnrollmentsFromStorage st = []) ∧
    saveEnrollmentsToStorage es st true = st := by
  refine ⟨fun h => ?_, fun h => ?_, ?_⟩
  · simp [loadEnrollmentsFromStorage, loadEnrollmentsFromStorageImpl, h]
  · simp [loadEnrollmentsFromStorage, loadEnrollmentsFromStorageImpl, h]
  · simp only [saveEnrollmentsToStorage, saveEnrollmentsToStorageImpl]
    rcases serializeEnrollments es with err | ser <;> simp

theorem storage_failures_degrade_witness :
    (getItem [] ENROLLMENTS_STORAGE_KEY = none ∧
      loadEnrollmentsFromStorage [] = []) ∧
    (getItem [(ENROLLMENTS_STORAGE_KEY, StoredValue.malformed "oops")]
        ENROLLMENTS_STORAGE_KEY = some (StoredValue.malformed "oops") ∧
      loadEnrollmentsFromStorage
        [(ENROLLMENTS_STORAGE_KEY, StoredValue.malformed "oops")] = []) ∧
    saveEnrollmentsToStorage [approvedE] [] true = [] :=
  ⟨⟨rfl, (storage_failures_degrade [] [approvedE] "oops").1 rfl⟩,
   ⟨by decide,
    (storage_failures_degrade [(ENROLLMENTS_STORAGE_KEY, StoredValue.malformed "oops")]
      [approvedE] "oops").2.1 (by decide)⟩,
   (storage_failures_degrade [] [approvedE] "oops").2.2⟩

theorem timer1_skips_nonprocessing (eid : String) (es : List Enrollment)
    (i : Nat) (e : Enrollment) (he : es[i]? = some e)
    (hs : e.status ≠ "processing") :
    (submitReviewTimer1 eid es)[i]? = some e := by
  simp only [submitReviewTimer1, List.getElem?_map, he, Option.map_some']
  rw [if_neg fun h => hs h.2]

theorem timer2_skips_nonunderreview (eid : String) (rc ro re : Rat) (now : Int)
    (es : List Enrollment) (i : Nat) (e : Enrollment) (he : es[i]? = some e)
    (hs : e.status ≠ "under-review") :
    (submitReviewTimer2 eid rc ro re now es)[i]? = some e := by
  simp only [submitReviewTimer2, List.getElem?_map, he, Option.map_some']
  rw [if_pos (Or.inr hs)]

/-- C8: each delayed callback of `submitForReview` changes the targeted
enrollment only if its status still equals the expected source state —
`processing` for the under-review transition, `under-review` for the
approval transition; an enrollment moved out of those states is returned
unchanged by the pending callback. -/
theorem submit_timers_stale_guard (eid : String) (rc ro re : Rat) (now : Int)
    (es : List Enrollment) (i : Nat) (e : Enrollment) (he : es[i]? = some e) :
    (e.status ≠ "processing" → (submitReviewTimer1 eid es)[i]? = some e) ∧
    (e.status ≠ "under-review" → (submitReviewTimer2 eid rc ro re now es)[i]? = some e) :=
  ⟨timer1_skips_nonprocessing eid es i e he,
   timer2_skips_nonunderreview eid rc ro re now es i e he⟩

theorem submit_timers_stale_guard_witness :
    ([approvedE][0]? = some approvedE ∧
      approvedE.status ≠ "processing" ∧ approvedE.status ≠ "under-review") ∧
    (submitReviewTimer1 "e1" [approvedE])[0]? = some approvedE ∧
    (submitReviewTimer2 "e1" 0 0 0 0 [approvedE])[0]? = some approvedE :=
  ⟨⟨rfl, by decide, by decide⟩,
   (submit_timers_stale_guard "e1" 0 0 0 0 [approvedE] 0 approvedE rfl).1 (by decide),
   (submit_timers_stale_guard "e1" 0 0 0 0 [approvedE] 0 approvedE rfl).2 (by decide)⟩

theorem isTerminalState_cases (s : String) (h : isTerminalState s = true) :
    s = "approved" ∨ s = "rejected" := by
  simpa [isTerminalState] using h

/-- C1 counterexample: `uploadFile`, `submitForReview`, `rejectEnrollment`
and `advanceToApproved` do not guard terminal states — each moves an
approved (resp. rejected) enrollment out of its terminal status when
invoked with its id. -/
theorem terminal_not_guarded_cex :
    (uploadFile "e1" "video.mp4" 1024 [approvedE]).map Enrollment.status = ["uploaded"] ∧
    (submitForReview "e1" [approvedE]).map Enrollment.status = ["processing"] ∧
    (rejectEnrollment "e1" [approvedE]).map Enrollment.status = ["rejected"] ∧
    (advanceToApproved "e2" 0 0 0 0 [rejectedE]).map Enrollment.status = ["approved"] := by
  refine ⟨?_, ?_, ?_, ?_⟩ <;> decide

/-- C1 (amended): among the enrollment-mutating operations, only
`advanceEnrollment` and the delayed callbacks of `submitForReview` leave an
approved or rejected enrollment unchanged; `uploadFile`, `submitForReview`,
`advanceToApproved` and `rejectEnrollment` overwrite a terminal status when
invoked with its id. -/
theorem advance_and_timers_preserve_terminal (eid : String) (rc ro re : Rat)
    (now : Int) (es : List Enrollment) (i : Nat) (e : Enrollment)
    (he : es[i]? = some e) (ht : isTerminalState e.status = true) :
    (advanceEnrollment eid rc ro re now es)[i]? = some e ∧
    (submitReviewTimer1 eid es)[i]? = some e ∧
    (submitReviewTimer2 eid rc ro re now es)[i]? = some e := by
  refine ⟨?_, timer1_skips_nonprocessing eid es i e he ?_,
    timer2_skips_nonunderreview eid rc ro re now es i e he ?_⟩
  · simp only [advanceEnrollment, List.getElem?_map, he, Option.map_some']
    rw [if_pos (Or.inr ht)]
  · rcases isTerminalState_cases e.status ht with h | h <;> simp [h]
  · rcases isTerminalState_cases e.status ht with h | h <;> simp [h]

theorem advance_and_timers_preserve_terminal_witness :
    ([approvedE][0]? = some approvedE ∧ isTerminalState approvedE.status = true) ∧
    (advanceEnrollment "e1" 0 0 0 0 [approvedE])[0]? = some approvedE ∧
    (submitReviewTimer1 "e1" [approvedE])[0]? = some approvedE ∧
    (submitReviewTimer2 "e1" 0 0 0 0 [approvedE])[0]? = some approvedE :=
  ⟨⟨rfl, by decide⟩,
   advance_and_timers_preserve_terminal "e1" 0 0 0 0 [approvedE] 0 approvedE rfl (by decide)⟩

/-- C2: `advanceEnrollment` on the matching enrollment moves its status
exactly one step along the chain enrolled → uploaded → processing →
under-review → approved, and leaves any other status — in particular the
terminal ones — unchanged. -/
theorem advanceEnrollment_one_step (eid : String) (rc ro re : Rat) (now : Int)
    (es : List Enrollment) (i : Nat) (e : Enrollment) (he : es[i]? = some e)
    (hid : e.id = eid) :
    ((advanceEnrollment eid rc ro re now es)[i]?).map Enrollment.status =
      some (if e.status = "enrolled" then "uploaded"
        else if e.status = "uploaded" then "processing"
        else if e.status = "processing" then "under-review"
        else if e.status = "under-review" then "approved"
        else e.status) ∧
    (isTerminalState e.status = true →
      (advanceEnrollment eid rc ro re now es)[i]? = some e) := by
  refine ⟨?_, fun ht => ?_⟩
  case refine_2 =>
    simp only [advanceEnrollment, List.getElem?_map, he, Option.map_some']
    rw [if_pos (Or.inr ht)]
  simp only [advanceEnrollment, List.getElem?_map, he, Option.map_some', Option.some.injEq]
  by_cases ht : isTerminalState e.status = true
  · rw [if_pos (Or.inr ht)]
    rcases isTerminalState_cases e.status ht with h | h <;> simp [h]
  · rw [if_neg fun hor => hor.elim (fun hne => hne hid) ht]
    by_cases h1 : e.status = "enrolled"
    · simp [nextEnrollmentState, h1]
    · by_cases h2 : e.status = "uploaded"
      · simp [nextEnrollmentState, h1, h2]
      · by_cases h3 : e.status = "processing"
        · simp [nextEnrollmentState, h1, h2, h3]
        · by_cases h4 : e.status = "under-review"
          · simp [nextEnrollmentState, h1, h2, h3, h4]
          · simp [nextEnrollmentState, h1, h2, h3, h4]

theorem advanceEnrollment_one_step_witness :
    ([underReviewE][0]? = some underReviewE ∧ underReviewE.id = "e3") ∧
    ((advanceEnrollment "e3" 0 0 0 7 [underReviewE])[0]?).map Enrollment.status =
      some "approved" :=
  ⟨⟨rfl, rfl⟩,
   (advanceEnrollment_one_step "e3" 0 0 0 7 [underReviewE] 0 underReviewE rfl rfl).1.trans
     (by decide)⟩

theorem serialize_then_deserialize (e : Enrollment) (h : e.enrolledAt.ms.isSome) :
    ∃ se, serializeEnrollment e = Except.ok se ∧ deserializeEnrollment se = e := by
  obtain ⟨t, ht⟩ := Option.isSome_iff_exists.mp h
  have hja : e.enrolledAt = ⟨some t⟩ := congrArg JsDate.mk ht
  refine ⟨{ id := e.id
            campaign := e.campaign
            status := e.status
            enrolledAt := DateString.iso t
            clicks := e.clicks
            orders := e.orders
            earnings := e.earnings
            uploadedFile := e.uploadedFile
            referralUrl := e.referralUrl
            stats := e.stats
            rejectionReason := e.rejectionReason }, ?_, ?_⟩
  · simp [serializeEnrollment, hja, JsDate.toISOStringE]
  · simp only [deserializeEnrollment, newDateOfString]
    rw [← hja]

theorem serializeEnrollments_roundtrip (es : List Enrollment)
    (h : ∀ e ∈ es, e.enrolledAt.ms.isSome) :
    ∃ ser, serializeEnrollments es = Except.ok ser ∧
      ser.map deserializeEnrollment = es := by
  induction es with
  | nil => exact ⟨[], rfl, rfl⟩
  | cons e rest ih =>
    obtain ⟨ser, hs, hd⟩ := ih fun x hx => h x (List.mem_cons_of_mem _ hx)
    obtain ⟨se, hse, hde⟩ := serialize_then_deserialize e (h e (List.mem_cons_self _ _))
    refine ⟨se :: ser, ?_, ?_⟩
    · simp [serializeEnrollments, hse, hs]
    · simp [hde, hd]

theorem find?_update_self (k : String) (v : StoredValue) :
    ∀ st : LocalStorage, st.any (fun p => p.1 == k) = true →
      (st.map fun p => if p.1 == k then (k, v) else p).find? (fun p => p.1 == k) =
        some (k, v)
  | [], h => by simp at h
  | p :: rest, h => by
    rw [List.map_cons]
    by_cases hp : (p.1 == k) = true
    · rw [if_pos hp]
      exact List.find?_cons_of_pos _ (beq_self_eq_true k)
    · have h2 : rest.any (fun p => p.1 == k) = true := by
        simpa [List.any_cons, hp] using h
      rw [if_neg hp, @List.find?_cons_of_neg _ (fun q => q.1 == k) p _ hp]
      exact find?_update_self k v rest h2

theorem find?_update_other (k k2 : String) (v : StoredValue) (hne : k2 ≠ k) :
    ∀ st : LocalStorage,
      (st.map fun p => if p.1 == k then (k, v) else p).find? (fun p => p.1 == k2) =
        st.find? (fun p => p.1 == k2)
  | [] => rfl
  | p :: rest => by
    rw [List.map_cons]
    by_cases hp : (p.1 == k) = true
    · have hpk : p.1 = k := by simpa using hp
      have hkk2 : ¬ ((k == k2) = true) := by
        intro hcon
        have hkk : k = k2 := by simpa using hcon
        exact hne hkk.symm
      have hp2 : ¬ ((p.1 == k2) = true) := by rw [hpk]; exact hkk2
      rw [if_pos hp, @List.find?_cons_of_neg _ (fun q => q.1 == k2) (k, v) _ hkk2,
        @List.find?_cons_of_neg _ (fun q => q.1 == k2) p _ hp2]
      exact find?_update_other k k2 v hne rest
    · rw [if_neg hp]
      by_cases hp2 : (p.1 == k2) = true
      · rw [@List.find?_cons_of_pos _ (fun q => q.1 == k2) p _ hp2,
          @List.find?_cons_of_pos _ (fun q => q.1 == k2) p _ hp2]
      · rw [@List.find?_cons_of_neg _ (fun q => q.1 == k2) p _ hp2,
          @List.find?_cons_of_neg _ (fun q => q.1 == k2) p _ hp2]
        exact find?_update_other k k2 v hne rest

theorem getItem_setItem_self (st : LocalStorage) (k : String) (v : StoredValue) :
    getItem (setItem st k v) k = some v := by
  unfold setItem getItem
  by_cases h : st.any (fun p => p.1 == k) = true
  · rw [if_pos h, find?_update_self k v st h]
    rfl
  · rw [if_neg h]
    have hn : st.find? (fun p => p.1 == k) = none := by
      rw [List.find?_eq_none]
      intro x hx hpx
      exact h (List.any_eq_true.mpr ⟨x, hx, hpx⟩)
    simp [hn]

theorem getItem_setItem_other (st : LocalStorage) (k k2 : String)
    (v : StoredValue) (hne : k2 ≠ k) :
    getItem (setItem st k v) k2 = getItem st k2 := by
  unfold setItem getItem
  by_cases h : st.any (fun p => p.1 == k) = true
  · rw [if_pos h, find?_update_other k k2 v hne st]
  · rw [if_neg h]
    have hkk2 : ¬ ((k == k2) = true) := by
      intro hcon
      have hkk : k = k2 := by simpa using hcon
      exact hne hkk.symm
    simp [hkk2]

/-- C3: saving a list of enrollments whose `enrolledAt` dates are valid and
loading it back yields the original list — the `Date` survives the
ISO-string round-trip and every other field is unchanged — and the write
touches only the single key `snoonu-collaborators-enrollments`. -/
theorem save_load_roundtrip (es : List Enrollment) (st : LocalStorage)
    (h : ∀ e ∈ es, e.enrolledAt.ms.isSome) :
    loadEnrollmentsFromStorage (saveEnrollmentsToStorage es st false) = es ∧
    ∀ k, k ≠ ENROLLMENTS_STORAGE_KEY →
      getItem (saveEnrollmentsToStorage es st false) k = getItem st k := by
  obtain ⟨ser, hs, hd⟩ := serializeEnrollments_roundtrip es h
  have hsave : saveEnrollmentsToStorage es st false =
      setItem st ENROLLMENTS_STORAGE_KEY (StoredValue.enrollArray ser) := by
    simp [saveEnrollmentsToStorage, saveEnrollmentsToStorageImpl, hs]
  constructor
  · rw [hsave]
    simp [loadEnrollmentsFromStorage, loadEnrollmentsFromStorageImpl,
      getItem_setItem_self, hd]
  · intro k hk
    rw [hsave, getItem_setItem_other st ENROLLMENTS_STORAGE_KEY k _ hk]

theorem save_load_roundtrip_witness :
    approvedE.enrolledAt.ms.isSome = true ∧
    loadEnrollmentsFromStorage (saveEnrollmentsToStorage [approvedE] [] false) =
      [approvedE] ∧
    getItem (saveEnrollmentsToStorage [approvedE] [] false) "other-key" =
      getItem [] "other-key" :=
  ⟨by decide,
   (save_load_roundtrip [approvedE] [] (by decide)).1,
   (save_load_roundtrip [approvedE] [] (by decide)).2 "other-key" (by decide)⟩

theorem nextEnrollmentState_mem (s s2 : String)
    (h : nextEnrollmentState s = some s2) : s2 ∈ enrollmentStatuses := by
  unfold nextEnrollmentState at h
  split_ifs at h <;> simp_all [enrollmentStatuses]

theorem applyOp_status_closed (op : Op) (es : List Enrollment)
    (h : ∀ e ∈ es, e.status ∈ enrollmentStatuses) :
    ∀ e ∈ applyOp op es, e.status ∈ enrollmentStatuses := by
  cases op with
  | enroll c now =>
    intro e hmem
    simp only [applyOp, enrollInCampaign, List.mem_append, List.mem_singleton] at hmem
    rcases hmem with hm | hm
    · exact h e hm
    · subst hm; simp [enrollmentStatuses]
  | upload eid fn sz =>
    intro e hmem
    simp only [applyOp, uploadFile, List.mem_map] at hmem
    obtain ⟨x, hx, hfx⟩ := hmem
    subst hfx
    by_cases hid : x.id = eid
    · simp [hid, enrollmentStatuses]
    · simpa [hid] using h x hx
  | submit eid =>
    intro e hmem
    simp only [applyOp, submitForReview, List.mem_map] at hmem
    obtain ⟨x, hx, hfx⟩ := hmem
    subst hfx
    by_cases hid : x.id = eid
    · simp [hid, enrollmentStatuses]
    · simpa [hid] using h x hx
  | submitCb1 eid =>
    intro e hmem
    simp only [applyOp, submitReviewTimer1, List.mem_map] at hmem
    obtain ⟨x, hx, hfx⟩ := hmem
    subst hfx
    by_cases hc : x.id = eid ∧ x.status = "processing"
    · simp [hc, enrollmentStatuses]
    · simpa [hc] using h x hx
  | submitCb2 eid rc ro re now =>
    intro e hmem
    simp only [applyOp, submitReviewTimer2, List.mem_map] at hmem
    obtain ⟨x, hx, hfx⟩ := hmem
    subst hfx
    by_cases hc : x.id ≠ eid ∨ x.status ≠ "under-review"
    · simpa [hc] using h x hx
    · simp [hc, enrollmentStatuses]
  | advance eid rc ro re now =>
    intro e hmem
    simp only [applyOp, advanceEnrollment, List.mem_map] at hmem
    obtain ⟨x, hx, hfx⟩ := hmem
    subst hfx
    by_cases hc : x.id ≠ eid ∨ isTerminalState x.status = true
    · simpa [hc] using h x hx
    · rw [if_neg hc]
      rcases hn : nextEnrollmentState x.status with _ | ns
      · simpa using h x hx
      · by_cases ha : ns = "approved"
        · simpa [ha] using nextEnrollmentState_mem x.status ns hn
        · simpa [ha] using nextEnrollmentState_mem x.status ns hn
  | approve eid rc ro re now =>
    intro e hmem
    simp only [applyOp, advanceToApproved, List.mem_map] at hmem
    obtain ⟨x, hx, hfx⟩ := hmem
    subst hfx
    by_cases hid : x.id ≠ eid
    · simpa [hid] using h x hx
    · simp [hid, enrollmentStatuses]
  | reject eid =>
    intro e hmem
    simp only [applyOp, rejectEnrollment, List.mem_map] at hmem
    obtain ⟨x, hx, hfx⟩ := hmem
    subst hfx
    by_cases hid : x.id = eid
    · simp [hid, enrollmentStatuses]
    · simpa [hid] using h x hx

/-- C6: after any sequence of the enrollment operations — enrollment
creation, file upload, submission and its delayed callbacks, advance,
approve, reject — applied to a state whose statuses all lie in the closed
six-value set, every enrollment's status still lies in that set. -/
theorem statuses_closed_under_ops (ops : List Op) (es : List Enrollment)
    (h : ∀ e ∈ es, e.status ∈ enrollmentStatuses) :
    ∀ e ∈ applyOps ops es, e.status ∈ enrollmentStatuses := by
  induction ops generalizing es with
  | nil => exact h
  | cons op rest ih => exact ih (applyOp op es) (applyOp_status_closed op es h)

theorem statuses_closed_under_ops_witness :
    (∀ e ∈ [approvedE], e.status ∈ enrollmentStatuses) ∧
    (∀ e ∈ applyOps
        [Op.enroll sampleCampaign 42, Op.upload "enrollment-42" "v.mp4" 10,
         Op.submit "enrollment-42", Op.submitCb1 "enrollment-42",
         Op.reject "enrollment-42"] [approvedE],
      e.status ∈ enrollmentStatuses) :=
  ⟨by decide,
   statuses_closed_under_ops
     [Op.enroll sampleCampaign 42, Op.upload "enrollment-42" "v.mp4" 10,
      Op.submit "enrollment-42", Op.submitCb1 "enrollment-42",
      Op.reject "enrollment-42"] [approvedE] (by decide)⟩

theorem enrollmentLEb_iff (a b : Enrollment) :
    enrollmentLEb a b = true ↔
      (statusPriority b.status < statusPriority a.status ∨
        (statusPriority b.status = statusPriority a.status ∧
          b.enrolledAt.getTime ≤ a.enrolledAt.getTime)) := by
  rw [enrollmentLEb, decide_eq_true_eq]
  show (if statusPriority b.status - statusPriority a.status ≠ 0
      then statusPriority b.status - statusPriority a.status
      else b.enrolledAt.getTime - a.enrolledAt.getTime) ≤ 0 ↔ _
  by_cases h : statusPriority b.status - statusPriority a.status ≠ 0
  · rw [if_pos h]
    omega
  · rw [if_neg h]
    omega

theorem enrollmentLEb_trans (a b c : Enrollment) (hab : enrollmentLEb a b = true)
    (hbc : enrollmentLEb b c = true) : enrollmentLEb a c = true := by
  rw [enrollmentLEb_iff] at hab hbc ⊢
  omega

theorem enrollmentLEb_total (a b : Enrollment) :
    (enrollmentLEb a b || enrollmentLEb b a) = true := by
  rw [Bool.or_eq_true, enrollmentLEb_iff, enrollmentLEb_iff]
  omega

/-- C9: the sorted list shown in the enrollments tab is a permutation of
the input enrollments, ordered by descending status priority with ties
within a status broken by more recent `enrolledAt` first; the priorities
order the statuses as approved > under-review > processing > uploaded >
enrolled > rejected. -/
theorem sortedEnrollments_perm_sorted (es : List Enrollment) :
    (sortedEnrollments es).Perm es ∧
    (sortedEnrollments es).Pairwise (fun a b =>
      statusPriority b.status < statusPriority a.status ∨
      (statusPriority b.status = statusPriority a.status ∧
        b.enrolledAt.getTime ≤ a.enrolledAt.getTime)) ∧
    statusPriority "rejected" < statusPriority "enrolled" ∧
    statusPriority "enrolled" < statusPriority "uploaded" ∧
    statusPriority "uploaded" < statusPriority "processing" ∧
    statusPriority "processing" < statusPriority "under-review" ∧
    statusPriority "under-review" < statusPriority "approved" := by
  refine ⟨List.mergeSort_perm es enrollmentLEb, ?_, by decide⟩
  have hs := List.sorted_mergeSort
    (fun a b c hab hbc => enrollmentLEb_trans a b c hab hbc)
    enrollmentLEb_total es
  exact hs.imp fun hab => (enrollmentLEb_iff _ _).mp hab

theorem floor_mul_bounds (r M : Rat) (mi : Int) (h0 : 0 ≤ r) (h1 : r < 1)
    (hpos : 0 < mi) (hM : (mi : Rat) = M) :
    0 ≤ ⌊r * M⌋ ∧ ⌊r * M⌋ < mi := by
  constructor
  · apply Int.floor_nonneg.mpr
    rw [← hM]
    exact mul_nonneg h0 (by exact_mod_cast hpos.le)
  · apply Int.floor_lt.mpr
    rw [← hM]
    have h2 : r * (mi : Rat) < 1 * (mi : Rat) :=
      mul_lt_mul_of_pos_right h1 (by exact_mod_cast hpos)
    simpa using h2

theorem approved_update_ok (e : Enrollment) (now : Int) (c o earn : Int)
    (hc1 : 100 ≤ c) (hc2 : c ≤ 599) (ho1 : 10 ≤ o) (ho2 : o ≤ 59)
    (he1 : 50 ≤ earn) (he2 : earn ≤ 249) :
    approvedStatsOK { e with status := "approved"
                             referralUrl := some (referralUrlFor e.campaign.id now)
                             clicks := c
                             orders := o
                             earnings := earn
                             stats := some ⟨c, o, earn⟩ } := by
  refine ⟨⟨referralUrlFor e.campaign.id now, rfl, ?_⟩,
    hc1, hc2, ho1, ho2, he1, he2, rfl, rfl⟩
  intro hcon
  have hlen := congrArg String.length hcon
  rw [referralUrlFor] at hlen
  simp only [String.length_append] at hlen
  have h23 : "https://snoonu.com/ref/".length = 23 := rfl
  have h3 : "?c=".length = 3 := rfl
  have h0 : "".length = 0 := rfl
  omega

/-- C10: every operation that sets an enrollment's status to `approved` —
the second delayed callback of `submitForReview`, `advanceEnrollment`
stepping out of `under-review`, and `advanceToApproved` — also sets a
non-empty referral URL and integer counters with 100 ≤ clicks ≤ 599,
10 ≤ orders ≤ 59, 50 ≤ earnings ≤ 249, for every value of the three random
draws in [0,1), and the `stats` record it stores equals the top-level
counters. -/
theorem approval_sets_stats_in_range (eid : String) (rc ro re : Rat)
    (now : Int) (es : List Enrollment) (i : Nat) (e : Enrollment)
    (he : es[i]? = some e) (hid : e.id = eid)
    (hc0 : 0 ≤ rc) (hc1 : rc < 1) (ho0 : 0 ≤ ro) (ho1 : ro < 1)
    (he0 : 0 ≤ re) (he1 : re < 1) :
    (e.status = "under-review" →
      ∃ e2, (submitReviewTimer2 eid rc ro re now es)[i]? = some e2 ∧
        approvedStatsOK e2) ∧
    (e.status = "under-review" →
      ∃ e2, (advanceEnrollment eid rc ro re now es)[i]? = some e2 ∧
        approvedStatsOK e2) ∧
    (∃ e2, (advanceToApproved eid rc ro re now es)[i]? = some e2 ∧
      approvedStatsOK e2) := by
  obtain ⟨hcl, hcu⟩ := floor_mul_bounds rc 400 400 hc0 hc1 (by norm_num) (by norm_num)
  obtain ⟨hol, hou⟩ := floor_mul_bounds ro 40 40 ho0 ho1 (by norm_num) (by norm_num)
  obtain ⟨hel, heu⟩ := floor_mul_bounds re 150 150 he0 he1 (by norm_num) (by norm_num)
  obtain ⟨hcl2, hcu2⟩ := floor_mul_bounds rc 500 500 hc0 hc1 (by norm_num) (by norm_num)
  obtain ⟨hol2, hou2⟩ := floor_mul_bounds ro 50 50 ho0 ho1 (by norm_num) (by norm_num)
  obtain ⟨hel2, heu2⟩ := floor_mul_bounds re 200 200 he0 he1 (by norm_num) (by norm_num)
  refine ⟨?_, ?_, ?_⟩
  · intro hs
    simp only [submitReviewTimer2, List.getElem?_map, he, Option.map_some']
    rw [if_neg (fun hor => hor.elim (fun hne => hne hid) (fun hne => hne hs))]
    exact ⟨_, rfl, approved_update_ok e now _ _ _ (by omega) (by omega)
      (by omega) (by omega) (by omega) (by omega)⟩
  · intro hs
    simp only [advanceEnrollment, List.getElem?_map, he, Option.map_some']
    have hnt : ¬(e.id ≠ eid ∨ isTerminalState e.status = true) := by
      rintro (hne | ht)
      · exact hne hid
      · rw [hs] at ht
        simp [isTerminalState] at ht
    rw [if_neg hnt, hs]
    exact ⟨_, rfl, approved_update_ok e now _ _ _ (by omega) (by omega)
      (by omega) (by omega) (by omega) (by omega)⟩
  · simp only [advanceToApproved, List.getElem?_map, he, Option.map_some']
    rw [if_neg (fun hne => hne hid)]
    exact ⟨_, rfl, approved_update_ok e now _ _ _ (by omega) (by omega)
      (by omega) (by omega) (by omega) (by omega)⟩

theorem approval_sets_stats_in_range_witness :
    ([underReviewE][0]? = some underReviewE ∧ underReviewE.id = "e3" ∧
      underReviewE.status = "under-review" ∧ (0 : Rat) ≤ 1/2 ∧ (1/2 : Rat) < 1) ∧
    (∃ e2, (submitReviewTimer2 "e3" (1/2) (1/2) (1/2) 7 [underReviewE])[0]? =
        some e2 ∧ approvedStatsOK e2) ∧
    (∃ e2, (advanceEnrollment "e3" (1/2) (1/2) (1/2) 7 [underReviewE])[0]? =
        some e2 ∧ approvedStatsOK e2) ∧
    (∃ e2, (advanceToApproved "e3" (1/2) (1/2) (1/2) 7 [underReviewE])[0]? =
        some e2 ∧ approvedStatsOK e2) := by
  have h := approval_sets_stats_in_range "e3" (1/2) (1/2) (1/2) 7 [underReviewE] 0
    underReviewE rfl rfl (by norm_num) (by norm_num) (by norm_num) (by norm_num)
    (by norm_num) (by norm_num)
  exact ⟨⟨rfl, rfl, rfl, by norm_num, by norm_num⟩, h.1 rfl, h.2.1 rfl, h.2.2⟩

end Collaborators
